import Mathlib

/-!
Verification of the core logic of the industrial-gauge-digitizer application
(`src/app.py`): tolerant JSON extraction (`extract_json`), the multi-model
fallback request chain (`analyze_gauge`), and the two session-state handlers
(staging an analysis result, committing a verified record).

The Python `json.loads` call is embedded as a strict JSON recursive-descent
parser over lists of characters, returning `Option Json`; `none` models a
raised `json.JSONDecodeError`.  Numbers are kept in exact decimal scientific
form (mantissa and power-of-ten exponent), mirroring the int/float lexemes;
the non-standard `NaN`/`Infinity` extensions and surrogate-pair decoding of
`\uXXXX` escapes are not modelled (no claim touches them).
-/

/-- A parsed JSON value, as produced by the Python `json` module:
`null`, booleans, numbers, strings, arrays and (insertion-ordered) objects. -/
inductive Json where
  | null : Json
  | bool : Bool → Json
  | num : Int → Int → Json
  | str : String → Json
  | arr : List Json → Json
  | obj : List (String × Json) → Json

/-- Whitespace skipped by the Python JSON decoder: space, tab, newline, return. -/
def isJsonWs (c : Char) : Bool :=
  c == ' ' || c == '\t' || c == '\n' || c == '\r'

/-- Drop leading JSON whitespace. -/
def skipWs : List Char → List Char
  | [] => []
  | c :: cs => if isJsonWs c then skipWs cs else c :: cs

/-- Numeric value of a hexadecimal digit, if any. -/
def hexVal (c : Char) : Option Nat :=
  if '0' ≤ c ∧ c ≤ '9' then some (c.toNat - 48)
  else if 'a' ≤ c ∧ c ≤ 'f' then some (c.toNat - 87)
  else if 'A' ≤ c ∧ c ≤ 'F' then some (c.toNat - 55)
  else none

/-- Body of a JSON string literal (after the opening quote): consumes
characters until the closing quote, handling the escape sequences of the
JSON grammar and rejecting raw control characters (strict mode). -/
def parseStrBody (fuel : Nat) (cs : List Char) (acc : List Char) :
    Option (String × List Char) :=
  match fuel with
  | 0 => none
  | fuel + 1 =>
    match cs with
    | [] => none
    | '"' :: rest => some (String.mk acc.reverse, rest)
    | '\\' :: e :: rest =>
      match e with
      | '"' => parseStrBody fuel rest ('"' :: acc)
      | '\\' => parseStrBody fuel rest ('\\' :: acc)
      | '/' => parseStrBody fuel rest ('/' :: acc)
      | 'b' => parseStrBody fuel rest (Char.ofNat 8 :: acc)
      | 'f' => parseStrBody fuel rest (Char.ofNat 12 :: acc)
      | 'n' => parseStrBody fuel rest ('\n' :: acc)
      | 'r' => parseStrBody fuel rest ('\r' :: acc)
      | 't' => parseStrBody fuel rest ('\t' :: acc)
      | 'u' =>
        match rest with
        | h1 :: h2 :: h3 :: h4 :: rest' =>
          match hexVal h1, hexVal h2, hexVal h3, hexVal h4 with
          | some a, some b, some c, some d =>
            parseStrBody fuel rest' (Char.ofNat (((a * 16 + b) * 16 + c) * 16 + d) :: acc)
          | _, _, _, _ => none
        | _ => none
      | _ => none
    | c :: rest =>
      if c.toNat < 32 then none else parseStrBody fuel rest (c :: acc)

/-- Natural-number value of a list of decimal digit characters. -/
def digitsVal (ds : List Char) : Nat :=
  ds.foldl (fun a c => a * 10 + (c.toNat - 48)) 0

/-- Optional fraction part: a dot followed by at least one digit; otherwise
nothing is consumed (the dot, if present, is left over, as in the Python
number regex). Returns the fraction digits and the remaining input. -/
def parseFracPart : List Char → List Char × List Char
  | '.' :: r =>
    let ds := r.takeWhile Char.isDigit
    if ds.isEmpty then ([], '.' :: r) else (ds, r.dropWhile Char.isDigit)
  | cs => ([], cs)

/-- Optional exponent part: `e`/`E`, optional sign, at least one digit;
otherwise nothing is consumed. Returns the signed exponent and the rest. -/
def parseExpPart : List Char → Option Int × List Char
  | [] => (none, [])
  | e :: r =>
    if e == 'e' || e == 'E' then
      match r with
      | '+' :: r' =>
        let ds := r'.takeWhile Char.isDigit
        if ds.isEmpty then (none, e :: r)
        else (some (Int.ofNat (digitsVal ds)), r'.dropWhile Char.isDigit)
      | '-' :: r' =>
        let ds := r'.takeWhile Char.isDigit
        if ds.isEmpty then (none, e :: r)
        else (some (-(Int.ofNat (digitsVal ds))), r'.dropWhile Char.isDigit)
      | _ =>
        let ds := r.takeWhile Char.isDigit
        if ds.isEmpty then (none, e :: r)
        else (some (Int.ofNat (digitsVal ds)), r.dropWhile Char.isDigit)
    else (none, e :: r)

/-- Assemble a number from its parsed pieces:
`value = sign * digits(int ++ frac) * 10 ^ (exp - |frac|)`. -/
def mkNum (neg : Bool) (intDs fracDs : List Char) (expVal : Option Int) : Json :=
  let m : Int := Int.ofNat (digitsVal (intDs ++ fracDs))
  Json.num (if neg then -m else m) ((expVal.getD 0) - Int.ofNat fracDs.length)

/-- JSON number: optional minus sign, integer part `0 | [1-9][0-9]*`, optional
fraction, optional exponent — the regex of the Python decoder.  A malformed
tail (`1.`, `2e`) ends the number early, leaving the tail unconsumed. -/
def parseNumber (cs : List Char) : Option (Json × List Char) :=
  let (neg, cs1) :=
    match cs with
    | '-' :: rest => (true, rest)
    | _ => (false, cs)
  match cs1 with
  | '0' :: rest =>
    let (fracDs, rest2) := parseFracPart rest
    let (expVal, rest3) := parseExpPart rest2
    some (mkNum neg ['0'] fracDs expVal, rest3)
  | c :: rest =>
    if c.isDigit then
      let ds := rest.takeWhile Char.isDigit
      let rest1 := rest.dropWhile Char.isDigit
      let (fracDs, rest2) := parseFracPart rest1
      let (expVal, rest3) := parseExpPart rest2
      some (mkNum neg (c :: ds) fracDs expVal, rest3)
    else none
  | [] => none

/-- Insert a key/value pair into an insertion-ordered association list with
Python-dict semantics: an existing key keeps its position and is overwritten,
a new key goes to the end. -/
def insertKV (kvs : List (String × Json)) (k : String) (v : Json) :
    List (String × Json) :=
  match kvs with
  | [] => [(k, v)]
  | (k', v') :: rest =>
    if k' == k then (k', v) :: rest else (k', v') :: insertKV rest k v

mutual

/-- Parse one JSON value from the input (leading whitespace allowed),
returning it with the unconsumed remainder; `none` models a decode error. -/
def parseValue (fuel : Nat) (cs : List Char) : Option (Json × List Char) :=
  match fuel with
  | 0 => none
  | fuel + 1 =>
    match skipWs cs with
    | 'n' :: 'u' :: 'l' :: 'l' :: rest => some (Json.null, rest)
    | 't' :: 'r' :: 'u' :: 'e' :: rest => some (Json.bool true, rest)
    | 'f' :: 'a' :: 'l' :: 's' :: 'e' :: rest => some (Json.bool false, rest)
    | '"' :: rest =>
      match parseStrBody (rest.length + 1) rest [] with
      | some (s, rest') => some (Json.str s, rest')
      | none => none
    | '{' :: rest =>
      match skipWs rest with
      | '}' :: rest' => some (Json.obj [], rest')
      | cs' => parseMembers fuel cs' []
    | '[' :: rest =>
      match skipWs rest with
      | ']' :: rest' => some (Json.arr [], rest')
      | cs' => parseElements fuel cs' []
    | cs' => parseNumber cs'

/-- Parse the members of a non-empty JSON object, starting at a key. -/
def parseMembers (fuel : Nat) (cs : List Char) (acc : List (String × Json)) :
    Option (Json × List Char) :=
  match fuel with
  | 0 => none
  | fuel + 1 =>
    match skipWs cs with
    | '"' :: rest =>
      match parseStrBody (rest.length + 1) rest [] with
      | some (k, rest1) =>
        match skipWs rest1 with
        | ':' :: rest2 =>
          match parseValue fuel rest2 with
          | some (v, rest3) =>
            match skipWs rest3 with
            | ',' :: rest4 => parseMembers fuel rest4 (insertKV acc k v)
            | '}' :: rest4 => some (Json.obj (insertKV acc k v), rest4)
            | _ => none
          | none => none
        | _ => none
      | none => none
    | _ => none

/-- Parse the elements of a non-empty JSON array, starting at a value. -/
def parseElements (fuel : Nat) (cs : List Char) (acc : List Json) :
    Option (Json × List Char) :=
  match fuel with
  | 0 => none
  | fuel + 1 =>
    match parseValue fuel cs with
    | some (v, rest) =>
      match skipWs rest with
      | ',' :: rest' => parseElements fuel rest' (v :: acc)
      | ']' :: rest' => some (Json.arr (v :: acc).reverse, rest')
      | _ => none
    | none => none

end

/-- Model of Python `json.loads` on a text: parse one JSON value and require
that only whitespace remains (otherwise the decoder raises `Extra data`).
`none` models a raised `json.JSONDecodeError`.  The fuel bounds the nesting
depth by the input length, which every nesting level consumes. -/
def json_loads (s : String) : Option Json :=
  match parseValue (2 * s.data.length + 2) s.data with
  | some (v, rest) => if (skipWs rest).isEmpty then some v else none
  | none => none

/-- Index of the first character satisfying `p`, if any. -/
def firstIdx (p : Char → Bool) : List Char → Option Nat
  | [] => none
  | c :: cs => if p c then some 0 else (firstIdx p cs).map (· + 1)

/-- Model of the regex search for a brace-delimited span (with the dot-all
flag, the dot matches every character): a greedy match runs from the first
opening brace of the text to the last closing brace; there is a match exactly
when some closing brace occurs after the first opening brace.  Returns the
matched substring. -/
def braceSpan (s : String) : Option String :=
  match firstIdx (· == '{') s.data, firstIdx (· == '}') s.data.reverse with
  | some i, some rj =>
    let j := s.data.length - 1 - rj
    if i < j then some (String.mk ((s.data.drop i).take (j - i + 1))) else none
  | _, _ => none

/-- The failure mapping `extract_json` falls back to: an object carrying the
fixed error marker under `error` and the original text under `raw`. -/
def parse_fail_obj (text : String) : Json :=
  Json.obj [("error", Json.str "Failed to parse JSON"), ("raw", Json.str text)]

/-- Embedding of `extract_json` (src/app.py lines 64-75): strict parse of the
whole text first; on decode error, regex-extract the greedy brace span and
parse that; any remaining failure returns the structured failure mapping with
the original text under `raw`. -/
def extract_json (text : String) : Json :=
  match json_loads text with
  | some v => v
  | none =>
    match braceSpan text with
    | some sub =>
      match json_loads sub with
      | some v => v
      | none => parse_fail_obj text
    | none => parse_fail_obj text

/-- Model of the Python expression `key in value` on a parsed JSON value:
dict membership tests keys, list membership compares elements (a string
equals only an equal string), string membership is a substring test, and on
numbers, booleans and `None` the operator raises `TypeError` (`none` here). -/
def py_in (key : String) : Json → Option Bool
  | Json.obj kvs => some (kvs.any (fun kv => kv.1 == key))
  | Json.arr xs =>
    some (xs.any (fun x =>
      match x with
      | Json.str s => s == key
      | _ => false))
  | Json.str s => some (decide (key.data <:+: s.data))
  | _ => none

/-- The ordered candidate-model list of `analyze_gauge` (src/app.py 91-95). -/
def models : List String :=
  ["meta-llama/llama-4-scout-17b-16e-instruct",
   "llama-3.2-90b-vision-preview",
   "llama-3.2-11b-vision-preview"]

/-- Embedding of the fallback loop of `analyze_gauge` (src/app.py 97-120).
The network is abstracted as `call : model id → Except error responseText`
(`Except.error e` models `client.chat.completions.create` raising, with
`e = str(exception)`).  Returns the result together with the trace of model
ids actually invoked, in order, so that attempt counts can be stated. -/
def fallback_run (call : String → Except String String) :
    List String → String → Json × List String
  | [], lastError =>
    (Json.obj [("error",
       Json.str ("All models failed. Last error: " ++ lastError))], [])
  | m :: rest, _lastError =>
    match call m with
    | Except.ok content => (extract_json content, [m])
    | Except.error e =>
      let r := fallback_run call rest e
      (r.1, m :: r.2)

/-- Embedding of `analyze_gauge` (src/app.py 78-120): run the fallback chain
over the configured model list with an empty initial `last_error`. -/
def analyze_gauge (call : String → Except String String) : Json :=
  (fallback_run call models "").1

/-- The model ids actually invoked by a run of `analyze_gauge`. -/
def attempted_models (call : String → Except String String) : List String :=
  (fallback_run call models "").2

/-- A row of the in-session shift log (the dict built at src/app.py 191-198).
The float reading is idealised as a rational. -/
structure Record where
  time : String
  reading : ℚ
  unit : String
  condition : String
  notes : String
  verified : Bool

/-- The Streamlit session state used by the app: the shift-log history and
the staged analysis result awaiting human verification. -/
structure SessionState where
  history : List Record
  staging_data : Option Json

/-- Embedding of the Analyze-Telemetry branch after `analyze_gauge` returns
(src/app.py 150-155): `if "error" in ai_data` surface an error, else stage
the result for review.  The returned flag records whether the error branch
ran; `none` models the `in` operator raising on a non-container value. -/
def analyze_handler (st : SessionState) (ai_data : Json) :
    Option (SessionState × Bool) :=
  match py_in "error" ai_data with
  | some true => some (st, true)
  | some false => some ({ st with staging_data := some ai_data }, false)
  | none => none

/-- Embedding of the Verify-and-Save submit branch (src/app.py 188-204):
build the verified record from the form values, prepend it to the history
(`insert(0, record)`), and clear the staged result to `None`. -/
def commit_handler (st : SessionState) (timestamp : String) (new_reading : ℚ)
    (new_unit new_condition new_notes : String) : SessionState :=
  { history :=
      { time := timestamp, reading := new_reading, unit := new_unit,
        condition := new_condition, notes := new_notes,
        verified := true } :: st.history,
    staging_data := none }

/-- The editable form values entering one commit action. -/
structure CommitInput where
  timestamp : String
  reading : ℚ
  unit : String
  condition : String
  notes : String

/-- The verified record a commit builds from its form values. -/
def CommitInput.toRecord (i : CommitInput) : Record :=
  { time := i.timestamp, reading := i.reading, unit := i.unit,
    condition := i.condition, notes := i.notes, verified := true }

/-- A sequence of commit actions applied in order to a session state. -/
def commit_all (st : SessionState) (inputs : List CommitInput) : SessionState :=
  inputs.foldl
    (fun s i => commit_handler s i.timestamp i.reading i.unit i.condition i.notes)
    st

/-! ### Helper lemmas -/

/-- Whether a parsed JSON value is an object (a Python dict). -/
def Json.isObj : Json → Bool
  | Json.obj _ => true
  | _ => false

theorem firstIdx_append (p : Char → Bool) (pre rest : List Char) (k : Nat)
    (h : ∀ c ∈ pre, p c = false) (hk : firstIdx p rest = some k) :
    firstIdx p (pre ++ rest) = some (k + pre.length) := by
  induction pre with
  | nil => simpa using hk
  | cons c cs ih =>
    have hc : p c = false := h c (List.mem_cons_self c cs)
    have ih' := ih (fun x hx => h x (List.mem_cons_of_mem c hx))
    simp [firstIdx, hc, ih']
    omega

theorem braceSpan_split (pre mid suf : List Char)
    (hpre : ∀ c ∈ pre, (c == '{') = false)
    (hsuf : ∀ c ∈ suf, (c == '}') = false) :
    braceSpan (String.mk (pre ++ ('{' :: (mid ++ ('}' :: suf))))) =
      some (String.mk ('{' :: (mid ++ ['}']))) := by
  have h1 : firstIdx (· == '{') (pre ++ ('{' :: (mid ++ ('}' :: suf)))) =
      some (0 + pre.length) :=
    firstIdx_append _ pre ('{' :: (mid ++ ('}' :: suf))) 0 hpre rfl
  have hrev : (pre ++ ('{' :: (mid ++ ('}' :: suf)))).reverse =
      suf.reverse ++ ('}' :: (mid.reverse ++ ('{' :: pre.reverse))) := by
    simp
  have hsuf' : ∀ c ∈ suf.reverse, (c == '}') = false := by
    intro c hc
    exact hsuf c (List.mem_reverse.mp hc)
  have h2 : firstIdx (· == '}') (pre ++ ('{' :: (mid ++ ('}' :: suf)))).reverse =
      some (0 + suf.reverse.length) := by
    rw [hrev]
    exact firstIdx_append _ suf.reverse ('}' :: (mid.reverse ++ ('{' :: pre.reverse)))
      0 hsuf' rfl
  have hlen : (pre ++ ('{' :: (mid ++ ('}' :: suf)))).length =
      pre.length + mid.length + suf.length + 2 := by
    simp [List.length_append]
    omega
  simp only [braceSpan, h1, h2]
  rw [if_pos]
  · congr 1
    congr 1
    have hd : (pre ++ ('{' :: (mid ++ ('}' :: suf)))).drop (0 + pre.length) =
        '{' :: (mid ++ ('}' :: suf)) := by
      rw [Nat.zero_add]
      exact List.drop_left pre _
    rw [hd]
    have hn : (pre ++ ('{' :: (mid ++ ('}' :: suf)))).length - 1 -
        (0 + suf.reverse.length) - (0 + pre.length) + 1 = mid.length + 2 := by
      rw [hlen]
      simp [List.length_reverse]
      omega
    rw [hn]
    rw [show mid.length + 2 = mid.length + 1 + 1 from rfl]
    rw [List.take_succ_cons]
    congr 1
    rw [List.take_append_eq_append_take]
    have h5 : mid.length + 1 - mid.length = 1 := by omega
    rw [h5, List.take_of_length_le (by omega), List.take_succ_cons,
      List.take_zero]
  · rw [hlen]
    simp [List.length_reverse]
    omega

theorem extract_json_strict (text : String) (v : Json)
    (h : json_loads text = some v) : extract_json text = v := by
  simp [extract_json, h]

theorem extract_json_span (text sub : String) (v : Json)
    (h1 : json_loads text = none) (h2 : braceSpan text = some sub)
    (h3 : json_loads sub = some v) : extract_json text = v := by
  simp [extract_json, h1, h2, h3]

theorem extract_json_fail (text : String)
    (h1 : json_loads text = none)
    (h2 : ∀ sub, braceSpan text = some sub → json_loads sub = none) :
    extract_json text = parse_fail_obj text := by
  simp only [extract_json, h1]
  cases hb : braceSpan text with
  | none => rfl
  | some sub => simp [h2 sub hb]

theorem fallback_first_ok (call : String → Except String String)
    (pre : List String) (m : String) (post : List String) (content : String)
    (hpre : ∀ p ∈ pre, ∃ e, call p = Except.error e)
    (hm : call m = Except.ok content) :
    ∀ lastErr, fallback_run call (pre ++ m :: post) lastErr =
      (extract_json content, pre ++ [m]) := by
  induction pre with
  | nil =>
    intro lastErr
    simp [fallback_run, hm]
  | cons p ps ih =>
    intro lastErr
    obtain ⟨e, he⟩ := hpre p (List.mem_cons_self p ps)
    have ih' := ih (fun q hq => hpre q (List.mem_cons_of_mem p hq))
    simp [fallback_run, he, ih']

theorem fallback_trace_take (call : String → Except String String) :
    ∀ (ms : List String) (lastErr : String),
      ∃ k, k ≤ ms.length ∧ (fallback_run call ms lastErr).2 = ms.take k := by
  intro ms
  induction ms with
  | nil =>
    intro lastErr
    exact ⟨0, by simp, by simp [fallback_run]⟩
  | cons m rest ih =>
    intro lastErr
    cases hc : call m with
    | ok content =>
      exact ⟨1, by simp, by simp [fallback_run, hc]⟩
    | error e =>
      obtain ⟨k, hk, htr⟩ := ih e
      refine ⟨k + 1, by simp; omega, ?_⟩
      simp [fallback_run, hc, htr]

theorem fallback_all_error (call : String → Except String String)
    (e1 e2 e3 : String)
    (h1 : call "meta-llama/llama-4-scout-17b-16e-instruct" = Except.error e1)
    (h2 : call "llama-3.2-90b-vision-preview" = Except.error e2)
    (h3 : call "llama-3.2-11b-vision-preview" = Except.error e3) :
    fallback_run call models "" =
      (Json.obj [("error",
         Json.str ("All models failed. Last error: " ++ e3))], models) := by
  simp [models, fallback_run, h1, h2, h3]

theorem models_nodup : models.Nodup := by decide

theorem any_key_iff (kvs : List (String × Json)) (k : String) :
    kvs.any (fun kv => kv.1 == k) = true ↔ k ∈ kvs.map Prod.fst := by
  simp only [List.any_eq_true, List.mem_map, beq_iff_eq]

theorem commit_all_history (inputs : List CommitInput) :
    ∀ st : SessionState,
      (commit_all st inputs).history =
        (inputs.map CommitInput.toRecord).reverse ++ st.history := by
  induction inputs with
  | nil =>
    intro st
    simp [commit_all]
  | cons i rest ih =>
    intro st
    have hstep : commit_all st (i :: rest) =
        commit_all (commit_handler st i.timestamp i.reading i.unit
          i.condition i.notes) rest := rfl
    rw [hstep, ih]
    simp [commit_handler, CommitInput.toRecord, List.append_assoc]

/-! ### Claims -/

/-- C1: the first candidate whose request returns without raising ends the
fallback chain — its response text is passed to `extract_json` and that
parsed result is returned immediately, later candidates are never invoked
(whatever the parsed content is); in particular, if candidate 1 fails and
candidate 2 succeeds with the valid JSON body for reading 42.5 PSI,
`analyze_gauge` returns exactly that parsed mapping and candidate 3 is never
invoked. -/
theorem claim_C1_first_success_short_circuits :
    (∀ (call : String → Except String String) (pre : List String) (m : String)
        (post : List String) (content : String),
        models = pre ++ m :: post →
        (∀ p ∈ pre, ∃ e, call p = Except.error e) →
        call m = Except.ok content →
        analyze_gauge call = extract_json content ∧
          attempted_models call = pre ++ [m]) ∧
    (∀ (call : String → Except String String) (e : String),
        call "meta-llama/llama-4-scout-17b-16e-instruct" = Except.error e →
        call "llama-3.2-90b-vision-preview" =
          Except.ok "\x7b\"reading\": 42.5, \"unit\": \"PSI\", \"condition\": \"Good\", \"reasoning\": \"steady\"\x7d" →
        analyze_gauge call =
          Json.obj [("reading", Json.num 425 (-1)), ("unit", Json.str "PSI"),
            ("condition", Json.str "Good"), ("reasoning", Json.str "steady")] ∧
          attempted_models call =
            ["meta-llama/llama-4-scout-17b-16e-instruct",
             "llama-3.2-90b-vision-preview"]) := by
  constructor
  · intro call pre m post content hsplit hpre hm
    unfold analyze_gauge attempted_models
    rw [hsplit, fallback_first_ok call pre m post content hpre hm ""]
    exact ⟨rfl, rfl⟩
  · intro call e h1 h2
    have hrun := fallback_first_ok call
      ["meta-llama/llama-4-scout-17b-16e-instruct"]
      "llama-3.2-90b-vision-preview" ["llama-3.2-11b-vision-preview"] _
      (by
        intro p hp
        simp only [List.mem_singleton] at hp
        subst hp
        exact ⟨e, h1⟩) h2 ""
    unfold analyze_gauge attempted_models
    rw [show models = ["meta-llama/llama-4-scout-17b-16e-instruct"] ++
      "llama-3.2-90b-vision-preview" :: ["llama-3.2-11b-vision-preview"]
      from rfl]
    rw [hrun]
    exact ⟨rfl, rfl⟩

/-- Witness for C1: a concrete call sequence in which the first model raises
and the second returns the 42.5 PSI body. -/
theorem claim_C1_witness :
    analyze_gauge (fun mid =>
      if mid == "meta-llama/llama-4-scout-17b-16e-instruct" then
        Except.error "rate limited"
      else
        Except.ok "\x7b\"reading\": 42.5, \"unit\": \"PSI\", \"condition\": \"Good\", \"reasoning\": \"steady\"\x7d") =
      Json.obj [("reading", Json.num 425 (-1)), ("unit", Json.str "PSI"),
        ("condition", Json.str "Good"), ("reasoning", Json.str "steady")] ∧
    attempted_models (fun mid =>
      if mid == "meta-llama/llama-4-scout-17b-16e-instruct" then
        Except.error "rate limited"
      else
        Except.ok "\x7b\"reading\": 42.5, \"unit\": \"PSI\", \"condition\": \"Good\", \"reasoning\": \"steady\"\x7d") =
      ["meta-llama/llama-4-scout-17b-16e-instruct",
       "llama-3.2-90b-vision-preview"] :=
  claim_C1_first_success_short_circuits.2 _ "rate limited" rfl rfl

/-- C2: `extract_json` never raises — every failure path (strict parse fails
and either no brace-delimited span exists or the span also fails to parse)
resolves to a structured failure mapping with an `error` key that preserves
the original input under `raw`; in particular on the braceless input
`I cannot analyze this image.` it returns such a failure mapping.  Totality
of the embedding is by construction; the content here is the shape of every
failure path. -/
theorem claim_C2_extract_json_never_raises :
    (∀ text : String,
        json_loads text = none →
        (∀ sub, braceSpan text = some sub → json_loads sub = none) →
        extract_json text =
          Json.obj [("error", Json.str "Failed to parse JSON"),
            ("raw", Json.str text)]) ∧
    extract_json "I cannot analyze this image." =
      Json.obj [("error", Json.str "Failed to parse JSON"),
        ("raw", Json.str "I cannot analyze this image.")] :=
  ⟨fun text h1 h2 => extract_json_fail text h1 h2,
   extract_json_fail "I cannot analyze this image." rfl (fun _ h => nomatch h)⟩

/-- Witness for C2: a concrete unparseable text with no brace span. -/
theorem claim_C2_witness :
    extract_json "sensor offline" =
      Json.obj [("error", Json.str "Failed to parse JSON"),
        ("raw", Json.str "sensor offline")] :=
  claim_C2_extract_json_never_raises.1 "sensor offline" rfl (fun _ h => nomatch h)

/-- C3: if every candidate model's request raises, `analyze_gauge` returns a
single error result whose message embeds the description of the last failure;
the output is exactly the mapping built from the final `last_error`, so
earlier candidates' failure descriptions do not appear in it. -/
theorem claim_C3_all_fail_returns_last_error
    (call : String → Except String String) (e1 e2 e3 : String)
    (h1 : call "meta-llama/llama-4-scout-17b-16e-instruct" = Except.error e1)
    (h2 : call "llama-3.2-90b-vision-preview" = Except.error e2)
    (h3 : call "llama-3.2-11b-vision-preview" = Except.error e3) :
    analyze_gauge call =
      Json.obj [("error",
        Json.str ("All models failed. Last error: " ++ e3))] := by
  unfold analyze_gauge
  rw [fallback_all_error call e1 e2 e3 h1 h2 h3]

/-- Witness for C3: three concrete distinct failures; only the last one is
embedded in the result. -/
theorem claim_C3_witness :
    analyze_gauge (fun mid =>
      if mid == "meta-llama/llama-4-scout-17b-16e-instruct" then
        Except.error "err one"
      else if mid == "llama-3.2-90b-vision-preview" then
        Except.error "err two"
      else
        Except.error "err three") =
      Json.obj [("error",
        Json.str "All models failed. Last error: err three")] :=
  (claim_C3_all_fail_returns_last_error _ "err one" "err two" "err three"
    rfl rfl rfl).trans rfl

/-- C4: `extract_json` first attempts a strict JSON parse of the whole input
and returns its result on success; if strict parsing fails it takes the
greedy substring from the first opening brace to the last closing brace and
attempts to parse that span (third conjunct: the span extracted is exactly
that greedy substring); consequently the bare JSON object input parses
directly and the prose-wrapped object is recovered by the brace span. -/
theorem claim_C4_strict_then_greedy_span :
    (∀ (text : String) (v : Json), json_loads text = some v →
        extract_json text = v) ∧
    (∀ (text sub : String) (v : Json), json_loads text = none →
        braceSpan text = some sub → json_loads sub = some v →
        extract_json text = v) ∧
    (∀ pre mid suf : List Char, (∀ c ∈ pre, (c == '{') = false) →
        (∀ c ∈ suf, (c == '}') = false) →
        braceSpan (String.mk (pre ++ ('{' :: (mid ++ ('}' :: suf))))) =
          some (String.mk ('{' :: (mid ++ ['}'])))) ∧
    extract_json "\x7b\"reading\": 10, \"unit\": \"bar\"\x7d" =
      Json.obj [("reading", Json.num 10 0), ("unit", Json.str "bar")] ∧
    extract_json "Sure! Here is the result: \x7b\"reading\": 10, \"unit\": \"bar\"\x7d Hope that helps." =
      Json.obj [("reading", Json.num 10 0), ("unit", Json.str "bar")] :=
  ⟨extract_json_strict, extract_json_span, braceSpan_split, rfl, rfl⟩

/-- Witness for C4: concrete instances of the strict path, the span-recovery
path, and the greedy-span shape. -/
theorem claim_C4_witness :
    extract_json "[7]" = Json.arr [Json.num 7 0] ∧
    extract_json "x\x7b\"k\": 1\x7dy" = Json.obj [("k", Json.num 1 0)] ∧
    braceSpan (String.mk (['a'] ++ ('{' :: (['b'] ++ ('}' :: ['c']))))) =
      some (String.mk ('{' :: (['b'] ++ ['}']))) :=
  ⟨claim_C4_strict_then_greedy_span.1 "[7]" (Json.arr [Json.num 7 0]) rfl,
   claim_C4_strict_then_greedy_span.2.1 "x\x7b\"k\": 1\x7dy" "\x7b\"k\": 1\x7d"
     (Json.obj [("k", Json.num 1 0)]) rfl rfl rfl,
   claim_C4_strict_then_greedy_span.2.2.1 ['a'] ['b'] ['c']
     (by decide) (by decide)⟩

/-- C5: an analysis result is staged for the human-verification step only if
it lacks an `error` key — when the result object contains an `error` key, the
handler surfaces an error and leaves the staged result untouched; otherwise
it stages exactly the result. -/
theorem claim_C5_stage_only_without_error_key :
    (∀ (st : SessionState) (kvs : List (String × Json)),
        "error" ∈ kvs.map Prod.fst →
        analyze_handler st (Json.obj kvs) = some (st, true)) ∧
    (∀ (st : SessionState) (kvs : List (String × Json)),
        "error" ∉ kvs.map Prod.fst →
        analyze_handler st (Json.obj kvs) =
          some ({ st with staging_data := some (Json.obj kvs) }, false)) := by
  constructor
  · intro st kvs h
    have hb : kvs.any (fun kv => kv.1 == "error") = true :=
      (any_key_iff kvs "error").mpr h
    simp [analyze_handler, py_in, hb]
  · intro st kvs h
    have hb : kvs.any (fun kv => kv.1 == "error") = false := by
      cases hx : kvs.any (fun kv => kv.1 == "error") with
      | false => rfl
      | true => exact absurd ((any_key_iff kvs "error").mp hx) h
    simp [analyze_handler, py_in, hb]

/-- Witness for C5: an error-carrying result is not staged, an error-free
result is staged verbatim. -/
theorem claim_C5_witness :
    analyze_handler ⟨[], none⟩ (Json.obj [("error", Json.str "boom")]) =
      some (⟨[], none⟩, true) ∧
    analyze_handler ⟨[], none⟩ (Json.obj [("reading", Json.num 7 0)]) =
      some (⟨[], some (Json.obj [("reading", Json.num 7 0)])⟩, false) :=
  ⟨claim_C5_stage_only_without_error_key.1 ⟨[], none⟩
     [("error", Json.str "boom")] (by decide),
   claim_C5_stage_only_without_error_key.2 ⟨[], none⟩
     [("reading", Json.num 7 0)] (by decide)⟩

/-- C6: the commit (verify-and-save) operation prepends the new verified
record to the front of the session log and clears the staged result; after
any sequence of commits the log lists the committed records most-recent-first
ahead of the prior history, which is preserved verbatim (so existing records
are never mutated). -/
theorem claim_C6_commit_prepends_and_clears :
    (∀ (st : SessionState) (t : String) (r : ℚ) (u cond notes : String),
        (commit_handler st t r u cond notes).history =
          ({ time := t, reading := r, unit := u, condition := cond,
             notes := notes, verified := true } : Record) :: st.history ∧
        (commit_handler st t r u cond notes).staging_data = none) ∧
    (∀ (st : SessionState) (inputs : List CommitInput),
        (commit_all st inputs).history =
          (inputs.map CommitInput.toRecord).reverse ++ st.history) :=
  ⟨fun _ _ _ _ _ _ => ⟨rfl, rfl⟩,
   fun st inputs => commit_all_history inputs st⟩

/-- C8: `analyze_gauge` performs at most three request attempts — the models
actually invoked are an in-order cut of the fixed candidate list, so at most
three, each candidate at most once, with no retry of a candidate; each
failure advances directly to the next candidate. -/
theorem claim_C8_at_most_three_attempts (call : String → Except String String) :
    ∃ k, k ≤ 3 ∧ attempted_models call = models.take k ∧
      (attempted_models call).length ≤ 3 ∧ (attempted_models call).Nodup := by
  obtain ⟨k, hk, htr⟩ := fallback_trace_take call models ""
  refine ⟨k, hk, htr, ?_, ?_⟩
  · unfold attempted_models
    rw [htr]
    exact le_trans (List.length_take_le k models) hk
  · unfold attempted_models
    rw [htr]
    exact (List.take_sublist k models).nodup models_nodup

/-- C9: there are inputs that are valid JSON but not JSON objects — on
`42`, `extract_json` returns a non-mapping value carrying no `error` key, and
when `analyze_gauge` forwards it, the caller's membership test of `error` in
the result is applied to a non-container (modelled by `py_in` returning
`none`, a raised `TypeError`), so the dispatch on the `error` key is not
well-defined for every `extract_json` output. -/
theorem claim_C9_non_object_result :
    json_loads "42" = some (Json.num 42 0) ∧
    extract_json "42" = Json.num 42 0 ∧
    Json.isObj (extract_json "42") = false ∧
    py_in "error" (extract_json "42") = none ∧
    analyze_gauge (fun _ => Except.ok "42") = Json.num 42 0 ∧
    py_in "error" (analyze_gauge (fun _ => Except.ok "42")) = none :=
  ⟨rfl, rfl, rfl, rfl, rfl, rfl⟩

/-- C10: the error mapping `analyze_gauge` returns when all candidates fail
carries only the `error` key and no `raw` key, whereas the failure mapping of
`extract_json` carries both `error` and `raw`; the two failure kinds are
therefore distinguishable by the presence of the `raw` key. -/
theorem claim_C10_raw_key_distinguishes_failures :
    (∀ (call : String → Except String String) (e1 e2 e3 : String),
        call "meta-llama/llama-4-scout-17b-16e-instruct" = Except.error e1 →
        call "llama-3.2-90b-vision-preview" = Except.error e2 →
        call "llama-3.2-11b-vision-preview" = Except.error e3 →
        analyze_gauge call =
          Json.obj [("error",
            Json.str ("All models failed. Last error: " ++ e3))] ∧
        py_in "error" (analyze_gauge call) = some true ∧
        py_in "raw" (analyze_gauge call) = some false) ∧
    (∀ text : String, json_loads text = none →
        (∀ sub, braceSpan text = some sub → json_loads sub = none) →
        extract_json text = parse_fail_obj text ∧
        py_in "error" (extract_json text) = some true ∧
        py_in "raw" (extract_json text) = some true) := by
  constructor
  · intro call e1 e2 e3 h1 h2 h3
    have hrun := fallback_all_error call e1 e2 e3 h1 h2 h3
    unfold analyze_gauge
    rw [hrun]
    exact ⟨rfl, rfl, rfl⟩
  · intro text h1 h2
    have hfail := extract_json_fail text h1 h2
    rw [hfail]
    exact ⟨rfl, rfl, rfl⟩

/-- Witness for C10: transport exhaustion yields a result without `raw`,
parse failure yields a result with `raw`. -/
theorem claim_C10_witness :
    py_in "raw" (analyze_gauge (fun _ => Except.error "net down")) =
      some false ∧
    py_in "raw" (extract_json "telemetry unavailable") = some true :=
  ⟨(claim_C10_raw_key_distinguishes_failures.1 _ "net down" "net down"
      "net down" rfl rfl rfl).2.2,
   (claim_C10_raw_key_distinguishes_failures.2 "telemetry unavailable" rfl
      (fun _ h => nomatch h)).2.2⟩

/-- Witness for C6: one concrete commit on a staged state prepends the
record and clears the staging slot. -/
theorem claim_C6_witness :
    (commit_handler ⟨[], some Json.null⟩ "10:00" 1 "PSI" "Good" "ok").history =
      ({ time := "10:00", reading := 1, unit := "PSI", condition := "Good",
         notes := "ok", verified := true } : Record) :: [] ∧
    (commit_handler ⟨[], some Json.null⟩ "10:00" 1 "PSI" "Good"
        "ok").staging_data = none :=
  claim_C6_commit_prepends_and_clears.1 ⟨[], some Json.null⟩ "10:00" 1 "PSI"
    "Good" "ok"

/-- Witness for C8: a concrete all-failing call attempts the three models. -/
theorem claim_C8_witness :
    ∃ k, k ≤ 3 ∧
      attempted_models (fun _ => Except.error "down") = models.take k ∧
      (attempted_models (fun _ => Except.error "down")).length ≤ 3 ∧
      (attempted_models (fun _ => Except.error "down")).Nodup :=
  claim_C8_at_most_three_attempts (fun _ => Except.error "down")
